import Mathlib

/-!
Verification of the xv6 demand-paging / FIFO-swapping subsystem.

Shallow embedding of the kernel sources:
  kernel/demand_paging.c  (variant A: explicit dirty tracking)
  kernel/lazy.c           (variant B: eager writability)
  kernel/sysproc.c        (sys_sbrk)
  kernel/exec.c           (kexec layout registration)

Machine integers are modelled as Nat with explicit wraparound (% 2^w)
where the C code can overflow; file I/O results (which depend on the
disk) are passed in as explicit oracle parameters; file contents are
modelled as functions from byte offset to byte value.
-/

namespace XV6

/-- MMU page size (kernel/riscv.h). -/
def PGSIZE : Nat := 4096

/-- Maximum number of page descriptors per process (proc.h). -/
def MAX_PROC_PAGES : Nat := 128

/-- Maximum number of swap slots per process (lazyalloc.h; the literal
1024 is also hard-coded in demand_paging.c). -/
def MAX_SWAP_SLOTS : Nat := 1024

/-- PGROUNDDOWN(a) = a & ~(PGSIZE-1); for the power-of-two PGSIZE this
equals clearing the low bits, i.e. a - a % PGSIZE. -/
def pgrounddown (a : Nat) : Nat := a / PGSIZE * PGSIZE

/-- Unsigned 64-bit subtraction as computed by the C expression a - b on
uint64 operands (wraparound modulo 2^64). -/
def usub64 (a b : Nat) : Nat := (a + (2 ^ 64 - b % 2 ^ 64)) % 2 ^ 64

/-- Page states (memstat.h): UNMAPPED = 0, RESIDENT = 1, SWAPPED = 2. -/
inductive PageState where
  | UNMAPPED
  | RESIDENT
  | SWAPPED
deriving DecidableEq, Repr

/-- One entry of the per-process page-info table (struct page_info). -/
structure PageInfo where
  va : Nat
  state : PageState
  is_dirty : Bool
  seq : Int
  swap_slot : Int
deriving DecidableEq, Repr

/-- Descriptor value used for out-of-range list reads; never reachable
in the proofs, which carry the index bounds. -/
def piDefault : PageInfo :=
  { va := 0, state := .UNMAPPED, is_dirty := false, seq := -1, swap_slot := -1 }

/-! ## Swap-slot bitmap (demand_paging.c, alloc_swap_slot / free_swap_slot)

The bitmap is an array of 32 machine words; slot i lives at bit i % 32
of word i / 32. -/

/-- Word read with C out-of-bounds reads never performed (the callers
keep indices below 32); List.getD matches arr[word]. -/
def bmWord (bm : List Nat) (w : Nat) : Nat := bm.getD w 0

/-- C test (word & (1 << bit)) != 0 for slot i. -/
def bmTestRaw (bm : List Nat) (i : Nat) : Bool :=
  bmWord bm (i / 32) &&& (1 <<< (i % 32)) != 0

/-- C statement word |= (1 << bit) for slot i. -/
def bmSet (bm : List Nat) (i : Nat) : List Nat :=
  bm.set (i / 32) (bmWord bm (i / 32) ||| (1 <<< (i % 32)))

/-- C statement word &= ~(1 << bit) for slot i; on a 32-bit word the
complement ~m equals 0xffffffff ^ m. -/
def bmClear (bm : List Nat) (i : Nat) : List Nat :=
  bm.set (i / 32) (bmWord bm (i / 32) &&& (0xffffffff ^^^ (1 <<< (i % 32))))

/-- Specification-level bit test: bit i % 32 of word i / 32. -/
def bmTest (bm : List Nat) (i : Nat) : Bool :=
  Nat.testBit (bmWord bm (i / 32)) (i % 32)

/-- The C idiom (n & (1 << b)) != 0 agrees with the bit-test function. -/
theorem and_one_shift_ne_zero (n b : Nat) :
    (n &&& (1 <<< b) != 0) = n.testBit b := by
  rw [Nat.shiftLeft_eq, Nat.one_mul]
  rcases h : n.testBit b with _ | _
  · have hz : n &&& 2 ^ b = 0 := by
      apply Nat.eq_of_testBit_eq
      intro j
      rw [Nat.testBit_and, Nat.testBit_two_pow, Nat.zero_testBit]
      rcases Decidable.em (b = j) with hj | hj
      · subst hj; simp [h]
      · simp [hj]
    rw [hz]
    rfl
  · simp only [bne_iff_ne, ne_eq]
    intro h0
    have hbit := congrArg (fun m => Nat.testBit m b) h0
    simp only [Nat.testBit_and, Nat.testBit_two_pow, Nat.zero_testBit, h] at hbit
    simp at hbit

theorem bmTestRaw_eq_bmTest (bm : List Nat) (i : Nat) :
    bmTestRaw bm i = bmTest bm i := by
  unfold bmTestRaw bmTest
  exact and_one_shift_ne_zero _ _

/-- List.getD after List.set at the same (in-range) index. -/
theorem getD_set_self {α : Type} (l : List α) (k : Nat) (v d : α)
    (hk : k < l.length) : (l.set k v).getD k d = v := by
  rw [List.getD_eq_getElem?_getD, List.getElem?_set_self hk]
  rfl

/-- List.getD after List.set at a different index. -/
theorem getD_set_ne {α : Type} (l : List α) (k k' : Nat) (v d : α)
    (h : k ≠ k') : (l.set k v).getD k' d = l.getD k' d := by
  rw [List.getD_eq_getElem?_getD, List.getElem?_set_ne h, ← List.getD_eq_getElem?_getD]

/-- List.getD after appending one element, below the old length. -/
theorem getD_append_lt {α : Type} (l : List α) (x d : α) (k : Nat)
    (hk : k < l.length) : (l ++ [x]).getD k d = l.getD k d := by
  rw [List.getD_eq_getElem?_getD, List.getElem?_append_left hk,
    ← List.getD_eq_getElem?_getD]

/-- List.getD after appending one element, at the old length. -/
theorem getD_append_self {α : Type} (l : List α) (x d : α) :
    (l ++ [x]).getD l.length d = x := by
  rw [List.getD_eq_getElem?_getD]
  rw [List.getElem?_append_right (Nat.le_refl _)]
  simp

/-- Effect of bmSet on individual bits (slots below 1024, bitmap of 32
words). -/
theorem bmTest_bmSet (bm : List Nat) (hlen : bm.length = 32)
    (s j : Nat) (hs : s < 1024) (_hj : j < 1024) :
    bmTest (bmSet bm s) j = (bmTest bm j || decide (j = s)) := by
  have hw : s / 32 < bm.length := by omega
  unfold bmTest bmSet bmWord
  rcases Decidable.em (j / 32 = s / 32) with hsame | hdiff
  · rw [hsame, getD_set_self _ _ _ _ hw]
    rw [Nat.testBit_or, Nat.shiftLeft_eq, Nat.one_mul, Nat.testBit_two_pow]
    have heq : (decide (s % 32 = j % 32)) = decide (j = s) := by
      rcases Decidable.em (j = s) with he | he
      · subst he; simp
      · have hne : ¬ (s % 32 = j % 32) := by omega
        simp [hne, he]
    rw [heq]
  · have hne : j ≠ s := by intro he; exact hdiff (by rw [he])
    rw [getD_set_ne _ _ _ _ _ (fun he => hdiff he.symm)]
    simp [hne]

/-- Effect of bmClear on individual bits (slots below 1024, bitmap of 32
words). -/
theorem bmTest_bmClear (bm : List Nat) (hlen : bm.length = 32)
    (s j : Nat) (hs : s < 1024) (_hj : j < 1024) :
    bmTest (bmClear bm s) j = (bmTest bm j && !decide (j = s)) := by
  have hw : s / 32 < bm.length := by omega
  unfold bmTest bmClear bmWord
  rcases Decidable.em (j / 32 = s / 32) with hsame | hdiff
  · rw [hsame, getD_set_self _ _ _ _ hw]
    have hmask : (0xffffffff : Nat) = 2 ^ 32 - 1 := by norm_num
    rw [Nat.testBit_and, Nat.shiftLeft_eq, Nat.one_mul, hmask,
      Nat.testBit_xor, Nat.testBit_two_pow_sub_one, Nat.testBit_two_pow]
    have hjlt : j % 32 < 32 := Nat.mod_lt _ (by norm_num)
    have heq : (decide (s % 32 = j % 32)) = decide (j = s) := by
      rcases Decidable.em (j = s) with he | he
      · subst he; simp
      · have hne : ¬ (s % 32 = j % 32) := by omega
        simp [hne, he]
    rw [heq]
    simp [hjlt]
  · have hne : j ≠ s := by intro he; exact hdiff (by rw [he])
    rw [getD_set_ne _ _ _ _ _ (fun he => hdiff he.symm)]
    simp [hne]

/-- Length is preserved by bit updates. -/
theorem bmSet_length (bm : List Nat) (i : Nat) :
    (bmSet bm i).length = bm.length := by
  unfold bmSet; simp

theorem bmClear_length (bm : List Nat) (i : Nat) :
    (bmClear bm i).length = bm.length := by
  unfold bmClear; simp

/-- The scan loop of alloc_swap_slot (demand_paging.c:79-87):
for i in [i0, i0+fuel) test the bit, set and return the first clear
index, or fall through with -1.  The C loop is the instance i0 = 0,
fuel = 1024. -/
def allocScan (bm : List Nat) : Nat → Nat → Int × List Nat
  | _, 0 => (-1, bm)
  | i, fuel + 1 =>
    if bmTestRaw bm i then allocScan bm (i + 1) fuel
    else ((i : Int), bmSet bm i)

/-- alloc_swap_slot on the bitmap component. -/
def alloc_swap_slot_bm (bm : List Nat) : Int × List Nat :=
  allocScan bm 0 1024

/-- free_swap_slot on the bitmap component (demand_paging.c:91-99). -/
def free_swap_slot_bm (bm : List Nat) (slot : Int) : List Nat :=
  if slot < 0 ∨ 1024 ≤ slot then bm
  else bmClear bm slot.toNat

theorem allocScan_none (bm : List Nat) :
    ∀ fuel i, (∀ j, i ≤ j → j < i + fuel → bmTest bm j = true) →
    allocScan bm i fuel = (-1, bm) := by
  intro fuel
  induction fuel with
  | zero => intro i _; rfl
  | succ n ih =>
    intro i hall
    have hi : bmTestRaw bm i = true := by
      rw [bmTestRaw_eq_bmTest]
      exact hall i (Nat.le_refl i) (by omega)
    unfold allocScan
    rw [hi]
    simp only [if_true]
    exact ih (i + 1) (fun j h1 h2 => hall j (by omega) (by omega))

theorem allocScan_found (bm : List Nat) :
    ∀ fuel i, (∃ j, i ≤ j ∧ j < i + fuel ∧ bmTest bm j = false) →
    ∃ s : Nat, allocScan bm i fuel = ((s : Int), bmSet bm s) ∧
      i ≤ s ∧ s < i + fuel ∧ bmTest bm s = false ∧
      (∀ j, i ≤ j → j < s → bmTest bm j = true) := by
  intro fuel
  induction fuel with
  | zero => intro i ⟨j, h1, h2, _⟩; omega
  | succ n ih =>
    intro i ⟨j, hj1, hj2, hj3⟩
    rcases h : bmTestRaw bm i with _ | _
    · refine ⟨i, ?_, Nat.le_refl i, by omega, ?_, ?_⟩
      · unfold allocScan; rw [h]; simp
      · rw [← bmTestRaw_eq_bmTest]; exact h
      · intro j hij hji; omega
    · have hji : j ≠ i := by
        intro he
        rw [he, ← bmTestRaw_eq_bmTest, h] at hj3
        simp at hj3
      have ⟨s, hs1, hs2, hs3, hs4, hs5⟩ :=
        ih (i + 1) ⟨j, by omega, by omega, hj3⟩
      refine ⟨s, ?_, by omega, by omega, hs4, ?_⟩
      · unfold allocScan; rw [h]; simpa using hs1
      · intro k hik hks
        rcases Decidable.em (k = i) with he | he
        · rw [he, ← bmTestRaw_eq_bmTest]; exact h
        · exact hs5 k (by omega) hks

/-! ## Per-process paging state (the proc.h fields demand_paging.c uses)

File handles are modelled as presence booleans, file contents as
functions from byte offset to byte value, and the page table as the
list of virtual addresses holding a valid user mapping. -/

structure Proc where
  text_start : Nat
  text_end : Nat
  data_start : Nat
  data_end : Nat
  heap_start : Nat
  stack_top : Nat
  sz : Nat
  next_fifo_seq : Nat
  swapfile : Bool
  exec_inode : Bool
  num_swapped_pages : Nat
  pages : List PageInfo
  exec_off : List Nat
  bitmap : List Nat
  mapped : List Nat
deriving DecidableEq, Repr

/-- demand_paging.c:50-73, get_page_info: find the descriptor whose va
matches after page-rounding, appending a fresh UNMAPPED one if capacity
remains.  Returns the descriptor index (the C returns the pointer
&p->pages[i]). -/
def get_page_info (p : Proc) (va0 : Nat) : Option Nat × Proc :=
  let va := pgrounddown va0
  match p.pages.findIdx? (fun pi => pi.va == va) with
  | some i => (some i, p)
  | none =>
    if p.pages.length < MAX_PROC_PAGES then
      (some p.pages.length,
       { p with pages := p.pages ++
          [{ va := va, state := .UNMAPPED, is_dirty := false, seq := -1, swap_slot := -1 }] })
    else (none, p)

/-- demand_paging.c:76-88, alloc_swap_slot on the whole process. -/
def alloc_swap_slot (p : Proc) : Int × Proc :=
  match alloc_swap_slot_bm p.bitmap with
  | (r, bm) => (r, { p with bitmap := bm })

/-- demand_paging.c:91-99, free_swap_slot on the whole process. -/
def free_swap_slot (p : Proc) (slot : Int) : Proc :=
  { p with bitmap := free_swap_slot_bm p.bitmap slot }

/-- demand_paging.c:188-228, swap_out_page.  writeOk tells whether the
writei call transferred the full PGSIZE bytes. -/
def swap_out_page (p : Proc) (va : Nat) (writeOk : Bool) : Int × Proc :=
  if p.swapfile = false then (-1, p)
  else
    match get_page_info p va with
    | (none, p1) => (-1, p1)
    | (some i, p1) =>
      match alloc_swap_slot p1 with
      | (slot, p2) =>
        if slot < 0 then (-1, p2)
        else if writeOk = false then (-1, free_swap_slot p2 slot)
        else
          let pi := p2.pages.getD i piDefault
          (slot,
           { p2 with
             pages := p2.pages.set i { pi with swap_slot := slot, state := .SWAPPED },
             num_swapped_pages := p2.num_swapped_pages + 1 })

/-- Zero page installed by memset(mem, 0, PGSIZE). -/
def zeroPage : Nat → Nat := fun _ => 0

/-- readi(ip, 0, dst, off, n) on an in-memory frame: bytes [0, n) of the
frame come from the file at offset off, the rest keeps dst. -/
def readBytes (file : Nat → Nat) (dst : Nat → Nat) (off n : Nat) : Nat → Nat :=
  fun k => if k < n then file (off + k) else dst k

/-- demand_paging.c:231-275, swap_in_page.  readOk tells whether readi
transferred the full PGSIZE bytes; swapData is the swap file contents;
dst is the frame contents before the read (freshly zeroed by the
caller).  Returns (return value, process, frame contents). -/
def swap_in_page (p : Proc) (va : Nat) (readOk : Bool) (swapData : Nat → Nat)
    (dst : Nat → Nat) : Int × Proc × (Nat → Nat) :=
  if p.swapfile = false then (-1, p, dst)
  else
    match get_page_info p va with
    | (none, p1) => (-1, p1, dst)
    | (some i, p1) =>
      let pi := p1.pages.getD i piDefault
      if pi.state ≠ .SWAPPED then (-1, p1, dst)
      else if pi.swap_slot < 0 then (-1, p1, dst)
      else if readOk = false then (-1, p1, dst)
      else
        let frame := readBytes swapData dst (pi.swap_slot.toNat * PGSIZE) PGSIZE
        let p2 := free_swap_slot p1 pi.swap_slot
        (0,
         { p2 with
           pages := p2.pages.set i
             { pi with swap_slot := -1, state := .RESIDENT,
                       seq := (p2.next_fifo_seq : Int), is_dirty := false },
           num_swapped_pages :=
             if p2.num_swapped_pages > 0 then p2.num_swapped_pages - 1
             else p2.num_swapped_pages,
           next_fifo_seq := p2.next_fifo_seq + 1 },
         frame)

/-- demand_paging.c:278-294, find_fifo_victim scan: track the minimum
seq among RESIDENT pages (min_seq starts at -1 meaning unset) and its
va; 0 is returned when no resident page exists. -/
def findVictimAux : List PageInfo → Int → Nat → Nat
  | [], _, v => v
  | pi :: rest, min_seq, v =>
    if pi.state = .RESIDENT ∧ (min_seq = -1 ∨ pi.seq < min_seq)
    then findVictimAux rest pi.seq pi.va
    else findVictimAux rest min_seq v

def find_fifo_victim (p : Proc) : Nat :=
  findVictimAux p.pages (-1) 0

/-- demand_paging.c:297-332, evict_page.  Returns (return value,
process, whether the frame was unmapped and returned to the
allocator). -/
def evict_page (p : Proc) (victim_va : Nat) (writeOk : Bool) :
    Int × Proc × Bool :=
  match get_page_info p victim_va with
  | (none, p1) => (-1, p1, false)
  | (some i, p1) =>
    let pi := p1.pages.getD i piDefault
    if pi.state ≠ .RESIDENT then (-1, p1, false)
    else if victim_va ∈ p1.mapped then
      if pi.is_dirty then
        match swap_out_page p1 victim_va writeOk with
        | (r, p2) =>
          if r < 0 then (-1, p2, false)
          else (0, { p2 with mapped := p2.mapped.erase victim_va }, true)
      else
        let p2 := { p1 with pages := p1.pages.set i { pi with state := .UNMAPPED } }
        (0, { p2 with mapped := p2.mapped.erase victim_va }, true)
    else (-1, p1, false)

/-- demand_paging.c:162-185, delete_swap_file: no-op when no swap file
handle is present, otherwise closes the handle (the slot count is only
printed). -/
def delete_swap_file (p : Proc) : Proc :=
  if p.swapfile = false then p
  else { p with swapfile := false }

/-! ## Page-fault handler (demand_paging.c:336-507) -/

/-- Fault causes as classified by handle_page_fault. -/
inductive Cause where
  | swap
  | exec
  | heap
  | stack
  | unknown
deriving DecidableEq, Repr

/-- External oracle for a single fault: results of the (at most two)
kalloc calls, of the file-system transfers, of mappages, and the
contents of the swap file and the executable. -/
structure FaultEnv where
  kalloc1 : Bool
  kalloc2 : Bool
  swapWriteOk : Bool
  swapReadOk : Bool
  execReadOk : Bool
  mapOk : Bool
  swapData : Nat → Nat
  execData : Nat → Nat

/-- Observable outcome of one handle_page_fault call: the C return
value, the process state, the classified cause, the contents of the
mapped frame (none on failure), how many victims were successfully
evicted, whether memset ran on an allocated frame, and which
diagnostics were printed. -/
structure FaultResult where
  ret : Int
  proc : Proc
  cause : Cause
  frame : Option (Nat → Nat)
  evictCount : Nat
  zeroed : Bool
  memFullDiag : Bool
  invalidDiag : Bool

/-- demand_paging.c:494-506: install the mapping (mappages); on failure
the frame is freed and -1 returned. -/
def mapAndReturn (env : FaultEnv) (p : Proc) (va : Nat) (cause : Cause)
    (fr : Nat → Nat) (evicted : Nat) (memfull : Bool) : FaultResult :=
  if env.mapOk = false then
    { ret := -1, proc := p, cause := cause, frame := none, evictCount := evicted,
      zeroed := true, memFullDiag := memfull, invalidDiag := false }
  else
    { ret := 0, proc := { p with mapped := p.mapped ++ [va] }, cause := cause,
      frame := some fr, evictCount := evicted, zeroed := true,
      memFullDiag := memfull, invalidDiag := false }

/-- demand_paging.c:466-491: mark the descriptor RESIDENT with a fresh
FIFO sequence number (re-looking it up as the C does when the original
pointer was null), then map. -/
def finishResident (env : FaultEnv) (p : Proc) (va : Nat) (cause : Cause)
    (fr : Nat → Nat) (evicted : Nat) (memfull : Bool) : FaultResult :=
  match get_page_info p va with
  | (some i, p1) =>
    let pi := p1.pages.getD i piDefault
    mapAndReturn env
      { p1 with
        pages := p1.pages.set i
          { pi with state := .RESIDENT, seq := (p1.next_fifo_seq : Int),
                    is_dirty := false },
        next_fifo_seq := p1.next_fifo_seq + 1 }
      va cause fr evicted memfull
  | (none, p1) => mapAndReturn env p1 va cause fr evicted memfull

/-- demand_paging.c:418-492: zero the frame, then fill it according to
the cause (swap-in, executable load for demand_paging.c — a full-PGSIZE
readi when the recorded offset is positive — or nothing for
heap/stack), then finalise. -/
def materialize (env : FaultEnv) (p : Proc) (va : Nat) (cause : Cause)
    (evicted : Nat) (memfull : Bool) : FaultResult :=
  match cause with
  | .swap =>
    match swap_in_page p va env.swapReadOk env.swapData zeroPage with
    | (r, p1, fr) =>
      if r < 0 then
        { ret := -1, proc := p1, cause := cause, frame := none,
          evictCount := evicted, zeroed := true, memFullDiag := memfull,
          invalidDiag := false }
      else mapAndReturn env p1 va cause fr evicted memfull
  | .exec =>
    if p.exec_inode = false then
      { ret := -1, proc := p, cause := cause, frame := none,
        evictCount := evicted, zeroed := true, memFullDiag := memfull,
        invalidDiag := false }
    else
      match p.pages.findIdx? (fun pi => pi.va == va) with
      | some i =>
        let off := p.exec_off.getD i 0
        if off > 0 then
          if env.execReadOk = false then
            { ret := -1, proc := p, cause := cause, frame := none,
              evictCount := evicted, zeroed := true, memFullDiag := memfull,
              invalidDiag := false }
          else
            finishResident env p va cause
              (readBytes env.execData zeroPage off PGSIZE) evicted memfull
        else finishResident env p va cause zeroPage evicted memfull
      | none => finishResident env p va cause zeroPage evicted memfull
  | _ => finishResident env p va cause zeroPage evicted memfull

/-- demand_paging.c:353-378: the cause classification of
handle_page_fault — SWAPPED descriptor, then the [text_start, data_end)
range, then [heap_start, sz), then the 2-page stack window below
stack_top (the subtraction is the C uint64 one). -/
def classify (p1 : Proc) (piState : Option PageState) (va : Nat) : Cause :=
  if piState = some .SWAPPED then .swap
  else if p1.text_start ≤ va ∧ va < p1.data_end then .exec
  else if p1.heap_start ≤ va ∧ va < p1.sz then .heap
  else if va < p1.stack_top ∧ usub64 p1.stack_top (2 * PGSIZE) ≤ va then .stack
  else .unknown

/-- demand_paging.c:336-507, handle_page_fault: round the address,
classify the fault, kill on invalid access, otherwise allocate a frame
(evicting one FIFO victim and retrying once on failure) and
materialise. -/
def handle_page_fault (env : FaultEnv) (p : Proc) (va0 : Nat)
    (_is_write : Bool) : FaultResult :=
  let va := pgrounddown va0
  match get_page_info p va with
  | (piOpt, p1) =>
    let piState : Option PageState :=
      piOpt.map (fun i => (p1.pages.getD i piDefault).state)
    let cause : Cause := classify p1 piState va
    if cause = .unknown then
      { ret := -1, proc := p1, cause := cause, frame := none, evictCount := 0,
        zeroed := false, memFullDiag := false, invalidDiag := true }
    else if env.kalloc1 then materialize env p1 va cause 0 false
    else
      let victim := find_fifo_victim p1
      if victim = 0 then
        { ret := -1, proc := p1, cause := cause, frame := none, evictCount := 0,
          zeroed := false, memFullDiag := true, invalidDiag := false }
      else
        match evict_page p1 victim env.swapWriteOk with
        | (r, p2, _) =>
          if r < 0 then
            { ret := -1, proc := p2, cause := cause, frame := none,
              evictCount := 0, zeroed := false, memFullDiag := true,
              invalidDiag := false }
          else if env.kalloc2 then materialize env p2 va cause 1 true
          else
            { ret := -1, proc := p2, cause := cause, frame := none,
              evictCount := 1, zeroed := false, memFullDiag := true,
              invalidDiag := false }

/-! ## Fragments of the lazy.c variant that differ from demand_paging.c -/

/-- lazy.c:147-157, the swap-restore bookkeeping inside
lazy_handle_fault after a successful readi: the descriptor becomes
RESIDENT with a fresh sequence number, its slot is remembered, cleared
and freed.  The is_dirty field is not written anywhere on this path. -/
def lazy_swap_restore (pi : PageInfo) (next : Nat) (bm : List Nat) :
    PageInfo × Nat × List Nat :=
  let pi1 := { pi with state := .RESIDENT, seq := (next : Int), swap_slot := -1 }
  if 0 ≤ pi.swap_slot then (pi1, next + 1, free_swap_slot_bm bm pi.swap_slot)
  else (pi1, next + 1, bm)

/-- lazy.c:212-224, the executable-load step of lazy_handle_fault: the
freshly zeroed frame receives read_len bytes from file_offset, but only
when both file_offset and read_len are positive. -/
def lazy_exec_load (file_offset read_len : Nat) (execData : Nat → Nat) :
    Nat → Nat :=
  if 0 < file_offset ∧ 0 < read_len then
    readBytes execData zeroPage file_offset read_len
  else zeroPage

/-- lazy.c:411-417, the eviction decision of lazy_evict_page: swap out
when the victim is dirty or is not a text (executable-image) page,
discard otherwise. -/
def lazy_evict_swaps (text_start text_end victim_va : Nat)
    (is_dirty : Bool) : Bool :=
  is_dirty || !(decide (text_start ≤ victim_va ∧ victim_va < text_end))

/-! ## sys_sbrk (sysproc.c:39-63) -/

/-- The process state the lazy branch of sys_sbrk can touch: the program
break sz (a uint64) and the set of installed user mappings. -/
structure SbrkState where
  sz : Nat
  mapped : List Nat
deriving DecidableEq, Repr

/-- sysproc.c:50-62, the branch of sys_sbrk taken when t ≠ SBRK_EAGER
and n ≥ 0: addr = sz; fail with uint64 -1 (2^64 - 1) when addr + n
wraps around, leaving sz unchanged; otherwise sz += n, no frame is
allocated and no mapping installed, and the old sz is returned. -/
def sys_sbrk_lazy (st : SbrkState) (n : Nat) : Nat × SbrkState :=
  let addr := st.sz
  if (addr + n) % 2 ^ 64 < addr then (2 ^ 64 - 1, st)
  else (addr, { st with sz := (st.sz + n) % 2 ^ 64 })

/-! ## FIFO sequence discipline (abstract transition system)

The per-process state components the sequence invariant I4 concerns:
the page-info table and the next_fifo_seq counter.  The steps cover
every source operation that writes a descriptor state or the counter:
descriptor creation (demand_paging.c get_page_info, exec.c kexec),
the transitions to RESIDENT (handle_page_fault LOADEXEC/ALLOC
finalisation, swap_in_page, lazy_handle_fault, the eager stack page in
kexec) — each of which executes seq = next_fifo_seq++ — eviction to
SWAPPED or UNMAPPED (evict_page / lazy_evict_page), and the dirty-bit
write of handle_write_fault. -/

structure SeqState where
  pages : List PageInfo
  next_fifo_seq : Nat
deriving DecidableEq, Repr

/-- The common effect of every source site that makes a page RESIDENT
(all perform pi->state = RESIDENT; pi->seq = p->next_fifo_seq++): the
sites differ only in the dirty flag they store (0 for the variant-A
loads and swap_in_page, write_fault for lazy_handle_fault), in the
swap_slot they leave (-1 after swap-in) and in the va they record. -/
def mkResidentState (s : SeqState) (i : Nat) (vaNew : Nat) (dirty : Bool)
    (slot : Int) : SeqState :=
  { pages := s.pages.set i
      { va := vaNew, state := .RESIDENT, seq := (s.next_fifo_seq : Int),
        is_dirty := dirty, swap_slot := slot },
    next_fifo_seq := s.next_fifo_seq + 1 }

/-- Descriptor creation (demand_paging.c:62-70). -/
def createState (s : SeqState) (va : Nat) : SeqState :=
  { s with pages := s.pages ++
      [{ va := va, state := .UNMAPPED, is_dirty := false, seq := -1,
         swap_slot := -1 }] }

/-- Eviction to SWAPPED (swap_out_page / lazy_evict_page). -/
def evictSwapState (s : SeqState) (i : Nat) (slot : Int) : SeqState :=
  let pi := s.pages.getD i piDefault
  { s with pages := s.pages.set i { pi with state := .SWAPPED, swap_slot := slot } }

/-- Clean discard to UNMAPPED (evict_page / lazy_evict_page). -/
def evictDiscardState (s : SeqState) (i : Nat) : SeqState :=
  let pi := s.pages.getD i piDefault
  { s with pages := s.pages.set i { pi with state := .UNMAPPED } }

/-- Dirty marking (handle_write_fault). -/
def writeFaultState (s : SeqState) (i : Nat) : SeqState :=
  let pi := s.pages.getD i piDefault
  { s with pages := s.pages.set i { pi with is_dirty := true } }

/-- One kernel operation on the page table, as visible to I4. -/
inductive SeqStep : SeqState → SeqState → Prop where
  | create (s : SeqState) (va : Nat)
      (h : s.pages.length < MAX_PROC_PAGES) :
      SeqStep s (createState s va)
  | makeResident (s : SeqState) (i vaNew : Nat) (dirty : Bool) (slot : Int)
      (h : i < s.pages.length) :
      SeqStep s (mkResidentState s i vaNew dirty slot)
  | evictSwap (s : SeqState) (i : Nat) (slot : Int)
      (h : i < s.pages.length) :
      SeqStep s (evictSwapState s i slot)
  | evictDiscard (s : SeqState) (i : Nat)
      (h : i < s.pages.length) :
      SeqStep s (evictDiscardState s i)
  | writeFault (s : SeqState) (i : Nat)
      (h : i < s.pages.length) :
      SeqStep s (writeFaultState s i)

/-- States produced by the two initialisers: demand_paging_init leaves
num_pages = 0, lazy_init fills the table with UNMAPPED descriptors; in
both next_fifo_seq = 0 and nothing is RESIDENT. -/
def SeqInit (s : SeqState) : Prop :=
  s.next_fifo_seq = 0 ∧ ∀ pi ∈ s.pages, pi.state ≠ .RESIDENT

/-- Reachability from an initial state through kernel operations. -/
inductive SeqReachable : SeqState → Prop where
  | init (s : SeqState) (h : SeqInit s) : SeqReachable s
  | step (s t : SeqState) (hs : SeqReachable s) (st : SeqStep s t) :
      SeqReachable t

/-- Invariant I4 on the raw components: RESIDENT descriptors carry
pairwise distinct seq values, each strictly below next_fifo_seq. -/
def SeqInvP (pages : List PageInfo) (next : Nat) : Prop :=
  (∀ i j, i < pages.length → j < pages.length → i ≠ j →
    (pages.getD i piDefault).state = .RESIDENT →
    (pages.getD j piDefault).state = .RESIDENT →
    (pages.getD i piDefault).seq ≠ (pages.getD j piDefault).seq) ∧
  (∀ i, i < pages.length →
    (pages.getD i piDefault).state = .RESIDENT →
    (pages.getD i piDefault).seq < (next : Int))

/-- Invariant I4 of a state. -/
def SeqInv (s : SeqState) : Prop :=
  SeqInvP s.pages s.next_fifo_seq

/-! ## Helper lemmas about the fault-handler pipeline -/

theorem mapAndReturn_props (env : FaultEnv) (p : Proc) (va : Nat)
    (cause : Cause) (fr : Nat → Nat) (evicted : Nat) (memfull : Bool) :
    (mapAndReturn env p va cause fr evicted memfull).cause = cause ∧
    (mapAndReturn env p va cause fr evicted memfull).evictCount = evicted ∧
    (mapAndReturn env p va cause fr evicted memfull).memFullDiag = memfull ∧
    (mapAndReturn env p va cause fr evicted memfull).zeroed = true ∧
    (mapAndReturn env p va cause fr evicted memfull).invalidDiag = false := by
  unfold mapAndReturn
  split <;> simp

theorem mapAndReturn_frame (env : FaultEnv) (p : Proc) (va : Nat)
    (cause : Cause) (fr : Nat → Nat) (evicted : Nat) (memfull : Bool)
    (h : (mapAndReturn env p va cause fr evicted memfull).ret = 0) :
    (mapAndReturn env p va cause fr evicted memfull).frame = some fr := by
  unfold mapAndReturn at *
  split at h
  · have h2 : (-1 : Int) = 0 := h
    exact absurd h2 (by decide)
  · rename_i hmap
    rw [if_neg hmap]

theorem finishResident_props (env : FaultEnv) (p : Proc) (va : Nat)
    (cause : Cause) (fr : Nat → Nat) (evicted : Nat) (memfull : Bool) :
    (finishResident env p va cause fr evicted memfull).cause = cause ∧
    (finishResident env p va cause fr evicted memfull).evictCount = evicted ∧
    (finishResident env p va cause fr evicted memfull).memFullDiag = memfull ∧
    (finishResident env p va cause fr evicted memfull).zeroed = true ∧
    (finishResident env p va cause fr evicted memfull).invalidDiag = false := by
  unfold finishResident
  rcases h : get_page_info p va with ⟨oi, p1⟩
  cases oi
  · exact mapAndReturn_props env p1 va cause fr evicted memfull
  · exact mapAndReturn_props env _ va cause fr evicted memfull

theorem finishResident_frame (env : FaultEnv) (p : Proc) (va : Nat)
    (cause : Cause) (fr : Nat → Nat) (evicted : Nat) (memfull : Bool)
    (h : (finishResident env p va cause fr evicted memfull).ret = 0) :
    (finishResident env p va cause fr evicted memfull).frame = some fr := by
  unfold finishResident at *
  rcases hg : get_page_info p va with ⟨oi, p1⟩
  rw [hg] at h
  cases oi
  · exact mapAndReturn_frame env p1 va cause fr evicted memfull h
  · exact mapAndReturn_frame env _ va cause fr evicted memfull h

theorem materialize_props (env : FaultEnv) (p : Proc) (va : Nat)
    (cause : Cause) (evicted : Nat) (memfull : Bool) :
    (materialize env p va cause evicted memfull).cause = cause ∧
    (materialize env p va cause evicted memfull).evictCount = evicted ∧
    (materialize env p va cause evicted memfull).memFullDiag = memfull ∧
    (materialize env p va cause evicted memfull).zeroed = true ∧
    (materialize env p va cause evicted memfull).invalidDiag = false := by
  cases cause with
  | swap =>
    rcases h : swap_in_page p va env.swapReadOk env.swapData zeroPage with ⟨r, p1, fr⟩
    simp only [materialize, h]
    split
    · simp
    · exact mapAndReturn_props env p1 va .swap fr evicted memfull
  | exec =>
    simp only [materialize]
    split
    · simp
    · rcases h : p.pages.findIdx? (fun pi => pi.va == va) with _ | i
      all_goals simp only [h]
      · exact finishResident_props env p va .exec zeroPage evicted memfull
      · split
        · split
          · simp
          · exact finishResident_props env p va .exec _ evicted memfull
        · exact finishResident_props env p va .exec zeroPage evicted memfull
  | heap => exact finishResident_props env p va .heap zeroPage evicted memfull
  | stack => exact finishResident_props env p va .stack zeroPage evicted memfull
  | unknown => exact finishResident_props env p va .unknown zeroPage evicted memfull

/-- On a successful heap or stack materialisation the mapped frame is
exactly the zero page. -/
theorem materialize_zero_frame (env : FaultEnv) (p : Proc) (va : Nat)
    (cause : Cause) (evicted : Nat) (memfull : Bool)
    (hc : cause = .heap ∨ cause = .stack)
    (h : (materialize env p va cause evicted memfull).ret = 0) :
    (materialize env p va cause evicted memfull).frame = some zeroPage := by
  rcases hc with hc | hc <;> subst hc
  · exact finishResident_frame env p va .heap zeroPage evicted memfull h
  · exact finishResident_frame env p va .stack zeroPage evicted memfull h

/-! ## Fault classification (claim C2) -/

/-- The validity condition of the specification, written from §4.7 of the
spec: the fault is valid iff the descriptor is SWAPPED, or va lies in
[text.start, data.end), or in [heap.start, sz), or in
[stack_top - K PGSIZE, stack_top) — the demand_paging.c handler fixes
K = 2. -/
def spec_fault_valid (p : Proc) (d : Option PageState) (va : Nat) : Prop :=
  d = some .SWAPPED ∨
  (p.text_start ≤ va ∧ va < p.data_end) ∨
  (p.heap_start ≤ va ∧ va < p.sz) ∨
  (p.stack_top - 2 * PGSIZE ≤ va ∧ va < p.stack_top)

instance (p : Proc) (d : Option PageState) (va : Nat) :
    Decidable (spec_fault_valid p d va) := by
  unfold spec_fault_valid
  infer_instance

/-- The state of the descriptor handle_page_fault consults (the one
get_page_info returns, possibly freshly created as UNMAPPED). -/
def lookupPageState (p : Proc) (va : Nat) : Option PageState :=
  ((get_page_info p va).1).map
    (fun i => (((get_page_info p va).2).pages.getD i piDefault).state)

theorem usub64_eq_sub (a b : Nat) (hb : b ≤ a) (ha : a < 2 ^ 64) :
    usub64 a b = a - b := by
  unfold usub64
  have hb64 : b % 2 ^ 64 = b := Nat.mod_eq_of_lt (lt_of_le_of_lt hb ha)
  rw [hb64]
  omega

/-- get_page_info never changes the layout fields. -/
theorem get_page_info_same_layout (p : Proc) (va : Nat) :
    ((get_page_info p va).2).text_start = p.text_start ∧
    ((get_page_info p va).2).text_end = p.text_end ∧
    ((get_page_info p va).2).data_end = p.data_end ∧
    ((get_page_info p va).2).heap_start = p.heap_start ∧
    ((get_page_info p va).2).sz = p.sz ∧
    ((get_page_info p va).2).stack_top = p.stack_top := by
  unfold get_page_info
  rcases h : p.pages.findIdx? (fun pi => pi.va == pgrounddown va) with _ | i <;>
    simp only [h]
  · split <;> simp
  · simp

/-- The classification returns a non-unknown cause exactly on the
disjunction given by the specification (once the uint64 stack subtraction is in
range). -/
theorem classify_ne_unknown_iff (p1 : Proc) (st : Option PageState) (va : Nat)
    (hst : 2 * PGSIZE ≤ p1.stack_top) (h64 : p1.stack_top < 2 ^ 64) :
    classify p1 st va ≠ .unknown ↔
      (st = some .SWAPPED ∨
       (p1.text_start ≤ va ∧ va < p1.data_end) ∨
       (p1.heap_start ≤ va ∧ va < p1.sz) ∨
       (p1.stack_top - 2 * PGSIZE ≤ va ∧ va < p1.stack_top)) := by
  unfold classify
  rw [usub64_eq_sub _ _ hst h64]
  split_ifs with h1 h2 h3 h4 <;> simp_all
  all_goals omega

/-- One-step unfolding of handle_page_fault once the descriptor lookup
is fixed. -/
theorem handle_page_fault_unfold (env : FaultEnv) (p : Proc) (va0 : Nat)
    (w : Bool) (oi : Option Nat) (p1 : Proc)
    (hg : get_page_info p (pgrounddown va0) = (oi, p1)) :
    handle_page_fault env p va0 w =
      (let va := pgrounddown va0
       let c := classify p1 (oi.map fun i => (p1.pages.getD i piDefault).state) va
       if c = .unknown then
         { ret := -1, proc := p1, cause := c, frame := none, evictCount := 0,
           zeroed := false, memFullDiag := false, invalidDiag := true }
       else if env.kalloc1 then materialize env p1 va c 0 false
       else if find_fifo_victim p1 = 0 then
         { ret := -1, proc := p1, cause := c, frame := none, evictCount := 0,
           zeroed := false, memFullDiag := true, invalidDiag := false }
       else
         match evict_page p1 (find_fifo_victim p1) env.swapWriteOk with
         | (r, p2, _) =>
           if r < 0 then
             { ret := -1, proc := p2, cause := c, frame := none,
               evictCount := 0, zeroed := false, memFullDiag := true,
               invalidDiag := false }
           else if env.kalloc2 then materialize env p2 va c 1 true
           else
             { ret := -1, proc := p2, cause := c, frame := none,
               evictCount := 1, zeroed := false, memFullDiag := true,
               invalidDiag := false }) := by
  simp only [handle_page_fault, hg]

/-- C2: the fault-validity classification of handle_page_fault agrees
with the four-way disjunction of the specification (with stack size K = 2
pages), and an invalid fault returns -1 with the invalid-access
diagnostic, no frame materialised, no eviction and no memset. -/
theorem handle_page_fault_classification (env : FaultEnv) (p : Proc)
    (va0 : Nat) (w : Bool)
    (hst : 2 * PGSIZE ≤ p.stack_top) (h64 : p.stack_top < 2 ^ 64) :
    ((handle_page_fault env p va0 w).cause ≠ .unknown ↔
      spec_fault_valid p (lookupPageState p (pgrounddown va0)) (pgrounddown va0)) ∧
    ((handle_page_fault env p va0 w).cause = .unknown →
      (handle_page_fault env p va0 w).ret = -1 ∧
      (handle_page_fault env p va0 w).invalidDiag = true ∧
      (handle_page_fault env p va0 w).frame = none ∧
      (handle_page_fault env p va0 w).evictCount = 0 ∧
      (handle_page_fault env p va0 w).zeroed = false) := by
  rcases hg : get_page_info p (pgrounddown va0) with ⟨oi, p1⟩
  have hlay := get_page_info_same_layout p (pgrounddown va0)
  rw [hg] at hlay
  obtain ⟨l1, l2, l3, l4, l5, l6⟩ := hlay
  have l1a : p1.text_start = p.text_start := l1
  have l3a : p1.data_end = p.data_end := l3
  have l4a : p1.heap_start = p.heap_start := l4
  have l5a : p1.sz = p.sz := l5
  have l6a : p1.stack_top = p.stack_top := l6
  have hval : spec_fault_valid p (lookupPageState p (pgrounddown va0)) (pgrounddown va0) ↔
      classify p1 (oi.map fun i => (p1.pages.getD i piDefault).state)
        (pgrounddown va0) ≠ .unknown := by
    rw [classify_ne_unknown_iff p1 _ _ (by omega) (by omega)]
    unfold spec_fault_valid lookupPageState
    rw [hg]
    simp only [Option.map, l1a, l3a, l4a, l5a, l6a]
  rw [handle_page_fault_unfold env p va0 w oi p1 hg]
  simp only []
  set c := classify p1 (oi.map fun i => (p1.pages.getD i piDefault).state)
    (pgrounddown va0) with hc
  by_cases hu : c = .unknown
  · rw [if_pos hu]
    constructor
    · simp only [hu]
      rw [hval]
      simp [hu]
    · intro _
      simp
  · rw [if_neg hu]
    have hcause : (if env.kalloc1 = true then materialize env p1 (pgrounddown va0) c 0 false
        else if find_fifo_victim p1 = 0 then
          { ret := -1, proc := p1, cause := c, frame := none, evictCount := 0,
            zeroed := false, memFullDiag := true, invalidDiag := false }
        else
          match evict_page p1 (find_fifo_victim p1) env.swapWriteOk with
          | (r, p2, _) =>
            if r < 0 then
              { ret := -1, proc := p2, cause := c, frame := none,
                evictCount := 0, zeroed := false, memFullDiag := true,
                invalidDiag := false }
            else if env.kalloc2 = true then materialize env p2 (pgrounddown va0) c 1 true
            else
              { ret := -1, proc := p2, cause := c, frame := none,
                evictCount := 1, zeroed := false, memFullDiag := true,
                invalidDiag := false }).cause = c := by
      by_cases hk : env.kalloc1 = true
      · rw [if_pos hk]
        exact (materialize_props env p1 (pgrounddown va0) c 0 false).1
      · rw [if_neg hk]
        by_cases hv : find_fifo_victim p1 = 0
        · rw [if_pos hv]
        · rw [if_neg hv]
          rcases he : evict_page p1 (find_fifo_victim p1) env.swapWriteOk with ⟨r, p2, fb⟩
          dsimp only
          by_cases hr : r < 0
          · rw [if_pos hr]
          · rw [if_neg hr]
            by_cases hk2 : env.kalloc2 = true
            · rw [if_pos hk2]
              exact (materialize_props env p2 (pgrounddown va0) c 1 true).1
            · rw [if_neg hk2]
    constructor
    · rw [hcause]
      rw [hval]
    · intro habs
      rw [hcause] at habs
      exact absurd habs hu

/-- C4: allocation with evict-and-retry in handle_page_fault.  When the
first kalloc succeeds no victim is evicted; when it fails and the fault
succeeds exactly one victim was evicted and the single retry supplied
the frame; when no victim exists or the retry also fails the handler
returns -1 having printed MEMFULL; memset runs on every successful
path, and a successful heap or stack fault maps the zero page. -/
theorem handle_page_fault_alloc_retry (env : FaultEnv) (p : Proc)
    (va0 : Nat) (w : Bool) :
    (env.kalloc1 = true → (handle_page_fault env p va0 w).evictCount = 0) ∧
    (env.kalloc1 = false → (handle_page_fault env p va0 w).ret = 0 →
      (handle_page_fault env p va0 w).evictCount = 1) ∧
    ((handle_page_fault env p va0 w).cause ≠ .unknown →
      env.kalloc1 = false →
      find_fifo_victim (get_page_info p (pgrounddown va0)).2 = 0 →
      (handle_page_fault env p va0 w).ret = -1 ∧
      (handle_page_fault env p va0 w).memFullDiag = true) ∧
    ((handle_page_fault env p va0 w).cause ≠ .unknown →
      env.kalloc1 = false → env.kalloc2 = false →
      (handle_page_fault env p va0 w).ret = -1 ∧
      (handle_page_fault env p va0 w).memFullDiag = true) ∧
    ((handle_page_fault env p va0 w).ret = 0 →
      (handle_page_fault env p va0 w).zeroed = true) ∧
    ((handle_page_fault env p va0 w).ret = 0 →
      (handle_page_fault env p va0 w).cause = .heap ∨
        (handle_page_fault env p va0 w).cause = .stack →
      (handle_page_fault env p va0 w).frame = some zeroPage) := by
  rcases hg : get_page_info p (pgrounddown va0) with ⟨oi, p1⟩
  rw [handle_page_fault_unfold env p va0 w oi p1 hg]
  simp only []
  set c := classify p1 (oi.map fun i => (p1.pages.getD i piDefault).state)
    (pgrounddown va0) with hc
  by_cases hu : c = .unknown
  · rw [if_pos hu]
    refine ⟨fun _ => rfl, ?_, ?_, ?_, ?_, ?_⟩
    · intro _ h0
      have h0x : (-1 : Int) = 0 := h0
      exact absurd h0x (by decide)
    · intro habs _ _
      exact absurd hu habs
    · intro habs _ _
      exact absurd hu habs
    · intro h0
      have h0x : (-1 : Int) = 0 := h0
      exact absurd h0x (by decide)
    · intro h0 _
      have h0x : (-1 : Int) = 0 := h0
      exact absurd h0x (by decide)
  · rw [if_neg hu]
    by_cases hk : env.kalloc1 = true
    · rw [if_pos hk]
      refine ⟨?_, ?_, ?_, ?_, ?_, ?_⟩
      · intro _
        exact (materialize_props env p1 (pgrounddown va0) c 0 false).2.1
      · intro hk0
        rw [hk0] at hk
        exact absurd hk (by decide)
      · intro _ hk0
        rw [hk0] at hk
        exact absurd hk (by decide)
      · intro _ hk0
        rw [hk0] at hk
        exact absurd hk (by decide)
      · intro _
        exact (materialize_props env p1 (pgrounddown va0) c 0 false).2.2.2.1
      · intro h0 hcse
        have hcc := (materialize_props env p1 (pgrounddown va0) c 0 false).1
        rw [hcc] at hcse
        exact materialize_zero_frame env p1 (pgrounddown va0) c 0 false hcse h0
    · rw [if_neg hk]
      by_cases hv : find_fifo_victim p1 = 0
      · rw [if_pos hv]
        refine ⟨fun _ => rfl, ?_, ?_, ?_, ?_, ?_⟩
        · intro _ h0
          have h0x : (-1 : Int) = 0 := h0
          exact absurd h0x (by decide)
        · intro _ _ _
          exact ⟨rfl, rfl⟩
        · intro _ _ _
          exact ⟨rfl, rfl⟩
        · intro h0
          have h0x : (-1 : Int) = 0 := h0
          exact absurd h0x (by decide)
        · intro h0 _
          have h0x : (-1 : Int) = 0 := h0
          exact absurd h0x (by decide)
      · rw [if_neg hv]
        rcases he : evict_page p1 (find_fifo_victim p1) env.swapWriteOk with ⟨r1, p2, fb⟩
        dsimp only
        by_cases hr : r1 < 0
        · rw [if_pos hr]
          refine ⟨fun _ => rfl, ?_, ?_, ?_, ?_, ?_⟩
          · intro _ h0
            have h0x : (-1 : Int) = 0 := h0
            exact absurd h0x (by decide)
          · intro _ _ _
            exact ⟨rfl, rfl⟩
          · intro _ _ _
            exact ⟨rfl, rfl⟩
          · intro h0
            have h0x : (-1 : Int) = 0 := h0
            exact absurd h0x (by decide)
          · intro h0 _
            have h0x : (-1 : Int) = 0 := h0
            exact absurd h0x (by decide)
        · rw [if_neg hr]
          by_cases hk2 : env.kalloc2 = true
          · rw [if_pos hk2]
            refine ⟨?_, ?_, ?_, ?_, ?_, ?_⟩
            · intro hk1
              exact absurd hk1 hk
            · intro _ _
              exact (materialize_props env p2 (pgrounddown va0) c 1 true).2.1
            · intro _ _ hv0
              exact absurd hv0 hv
            · intro _ _ hk20
              rw [hk20] at hk2
              exact absurd hk2 (by decide)
            · intro _
              exact (materialize_props env p2 (pgrounddown va0) c 1 true).2.2.2.1
            · intro h0 hcse
              have hcc := (materialize_props env p2 (pgrounddown va0) c 1 true).1
              rw [hcc] at hcse
              exact materialize_zero_frame env p2 (pgrounddown va0) c 1 true hcse h0
          · rw [if_neg hk2]
            refine ⟨?_, ?_, ?_, ?_, ?_, ?_⟩
            · intro hk1
              exact absurd hk1 hk
            · intro _ h0
              have h0x : (-1 : Int) = 0 := h0
              exact absurd h0x (by decide)
            · intro _ _ hv0
              exact absurd hv0 hv
            · intro _ _ _
              exact ⟨rfl, rfl⟩
            · intro h0
              have h0x : (-1 : Int) = 0 := h0
              exact absurd h0x (by decide)
            · intro h0 _
              have h0x : (-1 : Int) = 0 := h0
              exact absurd h0x (by decide)

/-- C7: alloc_swap_slot returns the smallest cleared slot index and
sets exactly that bit; with every slot taken it returns -1 and leaves
the bitmap untouched; free_swap_slot clears the given in-range bit and
is a silent no-op out of range. -/
theorem swap_slot_allocator_spec (p : Proc) (hlen : p.bitmap.length = 32) :
    (∀ k, k < 1024 → bmTest p.bitmap k = false →
      ∃ s : Nat, s < 1024 ∧ bmTest p.bitmap s = false ∧
        (∀ j, j < s → bmTest p.bitmap j = true) ∧
        alloc_swap_slot p = ((s : Int), { p with bitmap := bmSet p.bitmap s }) ∧
        (∀ j, j < 1024 →
          bmTest (bmSet p.bitmap s) j = (bmTest p.bitmap j || decide (j = s)))) ∧
    ((∀ k, k < 1024 → bmTest p.bitmap k = true) → alloc_swap_slot p = (-1, p)) ∧
    (∀ slot : Nat, slot < 1024 → ∀ j, j < 1024 →
      bmTest ((free_swap_slot p ((slot : Nat) : Int)).bitmap) j =
        (bmTest p.bitmap j && !decide (j = slot))) ∧
    (∀ slot : Int, slot < 0 ∨ 1024 ≤ slot → free_swap_slot p slot = p) := by
  refine ⟨?_, ?_, ?_, ?_⟩
  · intro k hk hkf
    obtain ⟨s, hs1, _, hs3, hs4, hs5⟩ :=
      allocScan_found p.bitmap 1024 0 ⟨k, Nat.zero_le k, by omega, hkf⟩
    refine ⟨s, by omega, hs4, fun j hj => hs5 j (Nat.zero_le j) hj, ?_, ?_⟩
    · simp only [alloc_swap_slot, alloc_swap_slot_bm, hs1]
    · intro j hj
      exact bmTest_bmSet p.bitmap hlen s j (by omega) hj
  · intro hall
    have hn := allocScan_none p.bitmap 1024 0 (fun j _ hj2 => hall j (by omega))
    simp only [alloc_swap_slot, alloc_swap_slot_bm, hn]
  · intro slot hs j hj
    have hcond : ¬ (((slot : Nat) : Int) < 0 ∨ (1024 : Int) ≤ ((slot : Nat) : Int)) := by
      push_neg
      constructor
      · exact Int.natCast_nonneg slot
      · exact_mod_cast hs
    unfold free_swap_slot free_swap_slot_bm
    rw [if_neg hcond]
    have htn : (((slot : Nat) : Int)).toNat = slot := Int.toNat_natCast slot
    rw [htn]
    exact bmTest_bmClear p.bitmap hlen slot j hs hj
  · intro slot hrange
    unfold free_swap_slot free_swap_slot_bm
    rw [if_pos hrange]

/-- C3 (amended): effects of a successful swap-in.  The function
swap_in_page in demand_paging.c reads the page from the slot, frees the slot bit, resets
swap_slot, makes the descriptor RESIDENT with a fresh sequence number
and clears is_dirty; the lazy.c swap path does all of that except
clearing is_dirty, which it leaves unchanged. -/
theorem swap_in_page_spec (p : Proc) (va : Nat) (i s : Nat)
    (swapData dst : Nat → Nat) (qi : PageInfo) (next : Nat) (bm2 : List Nat)
    (hsw : p.swapfile = true)
    (hfind : p.pages.findIdx? (fun q => q.va == pgrounddown va) = some i)
    (hi : i < p.pages.length)
    (hstate : (p.pages.getD i piDefault).state = .SWAPPED)
    (hslot : (p.pages.getD i piDefault).swap_slot = (s : Int))
    (hs1024 : s < 1024) (hlen : p.bitmap.length = 32) :
    (swap_in_page p va true swapData dst).1 = 0 ∧
    (swap_in_page p va true swapData dst).2.2 =
      readBytes swapData dst (s * PGSIZE) PGSIZE ∧
    ((swap_in_page p va true swapData dst).2.1.pages.getD i piDefault).state
      = .RESIDENT ∧
    ((swap_in_page p va true swapData dst).2.1.pages.getD i piDefault).swap_slot
      = -1 ∧
    ((swap_in_page p va true swapData dst).2.1.pages.getD i piDefault).is_dirty
      = false ∧
    ((swap_in_page p va true swapData dst).2.1.pages.getD i piDefault).seq
      = (p.next_fifo_seq : Int) ∧
    (swap_in_page p va true swapData dst).2.1.next_fifo_seq
      = p.next_fifo_seq + 1 ∧
    bmTest ((swap_in_page p va true swapData dst).2.1.bitmap) s = false ∧
    (lazy_swap_restore qi next bm2).1.state = .RESIDENT ∧
    (lazy_swap_restore qi next bm2).1.seq = (next : Int) ∧
    (lazy_swap_restore qi next bm2).1.swap_slot = -1 ∧
    (lazy_swap_restore qi next bm2).1.is_dirty = qi.is_dirty ∧
    (lazy_swap_restore qi next bm2).2.1 = next + 1 := by
  have hgp : get_page_info p va = (some i, p) := by
    simp only [get_page_info, hfind]
  have hnstate : ¬ ((p.pages.getD i piDefault).state ≠ PageState.SWAPPED) := by
    rw [hstate]
    exact fun hcon => hcon rfl
  have hs0 : ¬ ((p.pages.getD i piDefault).swap_slot < 0) := by
    rw [hslot]
    exact Int.not_lt.mpr (Int.natCast_nonneg s)
  have hlazy : (lazy_swap_restore qi next bm2).1.state = .RESIDENT ∧
      (lazy_swap_restore qi next bm2).1.seq = (next : Int) ∧
      (lazy_swap_restore qi next bm2).1.swap_slot = -1 ∧
      (lazy_swap_restore qi next bm2).1.is_dirty = qi.is_dirty ∧
      (lazy_swap_restore qi next bm2).2.1 = next + 1 := by
    unfold lazy_swap_restore
    split <;> exact ⟨rfl, rfl, rfl, rfl, rfl⟩
  have hbit : bmTest (free_swap_slot_bm p.bitmap ((s : Nat) : Int)) s = false := by
    unfold free_swap_slot_bm
    rw [if_neg (by
      push_neg
      exact ⟨Int.natCast_nonneg s, by exact_mod_cast hs1024⟩)]
    rw [Int.toNat_natCast]
    rw [bmTest_bmClear p.bitmap hlen s s hs1024 hs1024]
    simp
  simp only [swap_in_page, hgp]
  rw [hsw]
  rw [if_neg (by decide : ¬ (true = false))]
  rw [if_neg hnstate, if_neg hs0, if_neg (by decide : ¬ (true = false))]
  rw [hslot]
  have hpg : (free_swap_slot p ((s : Nat) : Int)).pages = p.pages := rfl
  have hnx : (free_swap_slot p ((s : Nat) : Int)).next_fifo_seq
      = p.next_fifo_seq := rfl
  refine ⟨rfl, by rw [Int.toNat_natCast], ?_, ?_, ?_, ?_, rfl, ?_, hlazy.1,
    hlazy.2.1, hlazy.2.2.1, hlazy.2.2.2.1, hlazy.2.2.2.2⟩
  · rw [hpg, getD_set_self _ _ _ _ hi]
  · rw [hpg, getD_set_self _ _ _ _ hi]
  · rw [hpg, getD_set_self _ _ _ _ hi]
  · rw [hpg, hnx, getD_set_self _ _ _ _ hi]
  · exact hbit

/-- A dirty page that was swapped out by the lazy variant and is now
being restored: the counterexample state for the original C3 claim. -/
def piDirtySwapped : PageInfo :=
  { va := 0x4000, state := .SWAPPED, is_dirty := true, seq := 0, swap_slot := 0 }

/-- C3 counterexample: immediately after the lazy.c swap-in completes
the descriptor is RESIDENT but is_dirty is still true, contradicting
the claim that is_dirty is false after every successful swap-in. -/
theorem lazy_swap_restore_keeps_dirty :
    (lazy_swap_restore piDirtySwapped 5 (List.replicate 32 1)).1.state
      = .RESIDENT ∧
    (lazy_swap_restore piDirtySwapped 5 (List.replicate 32 1)).1.is_dirty
      = true := by
  constructor <;> rfl

/-! ## Concrete states used as counterexamples and witnesses -/

/-- A process with one clean RESIDENT heap page at 0x4000 (for example
a page just swapped back in: swap_in_page leaves it clean). -/
def procCleanHeap : Proc :=
  { text_start := 0x1000, text_end := 0x3000, data_start := 0x3000,
    data_end := 0x4000, heap_start := 0x4000, stack_top := 0x10000,
    sz := 0x5000, next_fifo_seq := 1, swapfile := true, exec_inode := true,
    num_swapped_pages := 0,
    pages := [{ va := 0x4000, state := .RESIDENT, is_dirty := false,
                seq := 0, swap_slot := -1 }],
    exec_off := [0], bitmap := List.replicate 32 0, mapped := [0x4000] }

/-- The same state with the page dirty. -/
def procDirtyHeap : Proc :=
  { text_start := 0x1000, text_end := 0x3000, data_start := 0x3000,
    data_end := 0x4000, heap_start := 0x4000, stack_top := 0x10000,
    sz := 0x5000, next_fifo_seq := 1, swapfile := true, exec_inode := true,
    num_swapped_pages := 0,
    pages := [{ va := 0x4000, state := .RESIDENT, is_dirty := true,
                seq := 0, swap_slot := -1 }],
    exec_off := [0], bitmap := List.replicate 32 0, mapped := [0x4000] }

/-- A process with one SWAPPED page at 0x4000 occupying slot 0. -/
def procSwapped : Proc :=
  { text_start := 0x1000, text_end := 0x3000, data_start := 0x3000,
    data_end := 0x4000, heap_start := 0x4000, stack_top := 0x10000,
    sz := 0x5000, next_fifo_seq := 3, swapfile := true, exec_inode := true,
    num_swapped_pages := 1,
    pages := [{ va := 0x4000, state := .SWAPPED, is_dirty := false,
                seq := 0, swap_slot := 0 }],
    exec_off := [0], bitmap := 1 :: List.replicate 31 0, mapped := [] }

/-- An oracle where every external call succeeds. -/
def envAllOk : FaultEnv :=
  { kalloc1 := true, kalloc2 := true, swapWriteOk := true, swapReadOk := true,
    execReadOk := true, mapOk := true, swapData := fun _ => 0,
    execData := fun _ => 0 }

/-- C1: evict_page branches only on is_dirty, so a clean RESIDENT page
outside the text range — whose contents are not reloadable from the
executable — is discarded (state UNMAPPED), not swapped out as the
specification requires; the test in lazy_evict_page
(is_dirty || not text) would have swapped it. -/
theorem evict_page_discards_clean_nontext_page :
    (¬ (procCleanHeap.text_start ≤ 0x4000 ∧
        0x4000 < procCleanHeap.text_end)) ∧
    (procCleanHeap.pages.getD 0 piDefault).is_dirty = false ∧
    (procCleanHeap.pages.getD 0 piDefault).state = .RESIDENT ∧
    (evict_page procCleanHeap 0x4000 true).1 = 0 ∧
    ((evict_page procCleanHeap 0x4000 true).2.1.pages.getD 0 piDefault).state
      = .UNMAPPED ∧
    lazy_evict_swaps procCleanHeap.text_start procCleanHeap.text_end
      0x4000 false = true := by
  decide

/-- C8 counterexample: on a short swap write, swap_out_page reports
failure but the slot just allocated (slot 0) does not remain allocated —
its bitmap bit is clear after the call. -/
theorem swap_out_page_frees_slot_on_short_write :
    (swap_out_page procDirtyHeap 0x4000 false).1 = -1 ∧
    bmTest (swap_out_page procDirtyHeap 0x4000 false).2.bitmap 0 = false ∧
    (swap_out_page procDirtyHeap 0x4000 false).2.pages
      = procDirtyHeap.pages := by
  decide

/-- C8 (amended): a short swap-out write reports failure (-1), frees
the slot it had allocated — restoring every bitmap bit — and leaves the
descriptor table and swap counters untouched. -/
theorem swap_out_short_write_spec (p : Proc) (va : Nat) (i : Nat)
    (hsw : p.swapfile = true)
    (hfind : p.pages.findIdx? (fun q => q.va == pgrounddown va) = some i)
    (hlen : p.bitmap.length = 32)
    (k : Nat) (hk : k < 1024) (hkf : bmTest p.bitmap k = false) :
    (swap_out_page p va false).1 = -1 ∧
    (swap_out_page p va false).2.pages = p.pages ∧
    (swap_out_page p va false).2.num_swapped_pages = p.num_swapped_pages ∧
    (∀ j, j < 1024 →
      bmTest (swap_out_page p va false).2.bitmap j = bmTest p.bitmap j) := by
  obtain ⟨s, hs1, hs2, hs3, hs4, hs5⟩ :=
    allocScan_found p.bitmap 1024 0 ⟨k, Nat.zero_le k, by omega, hkf⟩
  have halloc : alloc_swap_slot p =
      ((s : Int), { p with bitmap := bmSet p.bitmap s }) := by
    simp only [alloc_swap_slot, alloc_swap_slot_bm, hs1]
  have hgp : get_page_info p va = (some i, p) := by
    simp only [get_page_info, hfind]
  have hclen : (bmSet p.bitmap s).length = 32 := by
    rw [bmSet_length]
    exact hlen
  have hfree : (free_swap_slot { p with bitmap := bmSet p.bitmap s }
      ((s : Nat) : Int)).bitmap = bmClear (bmSet p.bitmap s) s := by
    unfold free_swap_slot free_swap_slot_bm
    rw [if_neg (by
      push_neg
      exact ⟨Int.natCast_nonneg s, by exact_mod_cast (show s < 1024 by omega)⟩)]
    rw [Int.toNat_natCast]
  simp only [swap_out_page, hgp, halloc]
  rw [hsw]
  rw [if_neg (by decide : ¬ (true = false))]
  rw [if_neg (show ¬ ((s : Int) < 0) from Int.not_lt.mpr (Int.natCast_nonneg s))]
  rw [if_pos trivial]
  refine ⟨rfl, rfl, rfl, ?_⟩
  intro j hj
  have hsm : bmTest p.bitmap s = false := hs4
  show bmTest (free_swap_slot { p with bitmap := bmSet p.bitmap s }
      ((s : Nat) : Int)).bitmap j = bmTest p.bitmap j
  rw [hfree]
  rw [bmTest_bmClear _ hclen s j (by omega) hj]
  rw [bmTest_bmSet p.bitmap hlen s j (by omega) hj]
  rcases Decidable.em (j = s) with he | he
  · subst he
    simp [hsm]
  · simp [he]

/-- C5 counterexample: with exec_len = 16 but exec_off = 0 the lazy
handler performs no read at all (the frame stays zero), where the claim
requires the 16 bytes to be read from offset 0 (readBytes is the
claimed behaviour). -/
theorem lazy_exec_load_offset_zero_counterexample :
    lazy_exec_load 0 16 (fun _ => 0x7f) 0 = 0 ∧
    readBytes (fun _ => 0x7f) zeroPage 0 16 0 = 0x7f := by
  decide

/-- C5 (amended): when both exec_off and exec_len are positive the lazy
handler reads exactly exec_len bytes from exec_off into the zeroed
frame and the tail [exec_len, PGSIZE) stays zero; when exec_off = 0 or
exec_len = 0 the whole frame stays zero. -/
theorem lazy_exec_load_spec (off len : Nat) (execData : Nat → Nat)
    (hoff : 0 < off) (hlen : 0 < len) :
    (∀ k, k < len → lazy_exec_load off len execData k = execData (off + k)) ∧
    (∀ k, len ≤ k → lazy_exec_load off len execData k = 0) ∧
    (∀ off2 len2 k : Nat, off2 = 0 ∨ len2 = 0 →
      lazy_exec_load off2 len2 execData k = 0) := by
  refine ⟨?_, ?_, ?_⟩
  · intro k hk
    unfold lazy_exec_load readBytes
    rw [if_pos ⟨hoff, hlen⟩]
    simp [hk]
  · intro k hk
    unfold lazy_exec_load readBytes zeroPage
    rw [if_pos ⟨hoff, hlen⟩]
    simp [Nat.not_lt.mpr hk]
  · intro off2 len2 k h
    unfold lazy_exec_load zeroPage
    rcases h with h | h <;> subst h
    · rw [if_neg (by omega)]
    · rw [if_neg (by omega)]

/-- C9: destroying the swap file is a no-op when no handle is present
and is idempotent. -/
theorem delete_swap_file_idempotent :
    (∀ p : Proc, p.swapfile = false → delete_swap_file p = p) ∧
    (∀ p : Proc, delete_swap_file (delete_swap_file p)
      = delete_swap_file p) := by
  constructor
  · intro p h
    unfold delete_swap_file
    rw [if_pos h]
  · intro p
    by_cases h : p.swapfile = false
    · simp [delete_swap_file, h]
    · simp [delete_swap_file, h]

/-- C10: the lazy sys_sbrk branch fails with uint64 -1 on wraparound
leaving sz unchanged, otherwise adds exactly n to sz and returns the
old sz; in both cases the mapping set is untouched. -/
theorem sys_sbrk_lazy_spec (st : SbrkState) (n : Nat)
    (hsz : st.sz < 2 ^ 64) (hn : n < 2 ^ 31) :
    ((st.sz + n) % 2 ^ 64 < st.sz →
      sys_sbrk_lazy st n = (2 ^ 64 - 1, st)) ∧
    (st.sz ≤ (st.sz + n) % 2 ^ 64 →
      st.sz + n < 2 ^ 64 ∧
      sys_sbrk_lazy st n = (st.sz, { st with sz := st.sz + n })) ∧
    (sys_sbrk_lazy st n).2.mapped = st.mapped := by
  refine ⟨?_, ?_, ?_⟩
  · intro h
    unfold sys_sbrk_lazy
    rw [if_pos h]
  · intro h
    have hlt : st.sz + n < 2 ^ 64 := by omega
    refine ⟨hlt, ?_⟩
    unfold sys_sbrk_lazy
    rw [if_neg (Nat.not_lt.mpr h)]
    rw [Nat.mod_eq_of_lt hlt]
  · unfold sys_sbrk_lazy
    dsimp only
    split <;> rfl

/-! ## Witnesses -/

theorem handle_page_fault_alloc_retry_witness :
    (handle_page_fault envAllOk procCleanHeap 0x4000 false).evictCount = 0 :=
  (handle_page_fault_alloc_retry envAllOk procCleanHeap 0x4000 false).1 rfl

theorem swap_in_page_spec_witness :
    (swap_in_page procSwapped 0x4000 true (fun _ => 81) zeroPage).1 = 0 :=
  (swap_in_page_spec procSwapped 0x4000 0 0 (fun _ => 81) zeroPage
    piDirtySwapped 5 (List.replicate 32 1) rfl (by decide) (by decide)
    (by decide) (by decide) (by decide) (by decide)).1

theorem swap_slot_allocator_spec_witness :
    free_swap_slot procCleanHeap 2000 = procCleanHeap :=
  (swap_slot_allocator_spec procCleanHeap (by decide)).2.2.2 2000
    (Or.inr (by decide))

theorem swap_out_short_write_spec_witness :
    (swap_out_page procDirtyHeap 0x4000 false).1 = -1 :=
  (swap_out_short_write_spec procDirtyHeap 0x4000 0 rfl (by decide)
    (by decide) 0 (by decide) (by decide)).1

theorem lazy_exec_load_spec_witness :
    lazy_exec_load 8 4 (fun b => b + 1) 0 = 9 :=
  (lazy_exec_load_spec 8 4 (fun b => b + 1) (by decide) (by decide)).1 0
    (by decide)

theorem delete_swap_file_idempotent_witness :
    delete_swap_file { procCleanHeap with swapfile := false }
      = { procCleanHeap with swapfile := false } :=
  delete_swap_file_idempotent.1 _ rfl

theorem sys_sbrk_lazy_spec_witness :
    sys_sbrk_lazy ⟨0x4000, []⟩ 4096 = (0x4000, ⟨0x5000, []⟩) :=
  ((sys_sbrk_lazy_spec ⟨0x4000, []⟩ 4096 (by decide) (by decide)).2.1
    (by decide)).2

/-! ## Preservation of invariant I4 (claim C6) -/

theorem getD_mem {α : Type} (l : List α) (k : Nat) (d : α)
    (hk : k < l.length) : l.getD k d ∈ l := by
  rw [List.getD_eq_getElem?_getD, List.getElem?_eq_getElem hk]
  exact List.getElem_mem hk

theorem seqInv_init (s : SeqState) (h : SeqInit s) : SeqInv s := by
  obtain ⟨h0, hres⟩ := h
  constructor
  · intro i j hi hj hij hri hrj
    exact absurd hri (hres _ (getD_mem s.pages i piDefault hi))
  · intro i hi hri
    exact absurd hri (hres _ (getD_mem s.pages i piDefault hi))

theorem seqInvP_append (pages : List PageInfo) (next : Nat) (x : PageInfo)
    (hx : x.state ≠ .RESIDENT) (h : SeqInvP pages next) :
    SeqInvP (pages ++ [x]) next := by
  obtain ⟨hd, hb⟩ := h
  constructor
  · intro i j hi hj hij hri hrj
    simp only [List.length_append, List.length_cons, List.length_nil] at hi hj
    rcases Nat.lt_or_ge i pages.length with hi2 | hi2
    · rcases Nat.lt_or_ge j pages.length with hj2 | hj2
      · rw [getD_append_lt _ _ _ _ hi2] at hri ⊢
        rw [getD_append_lt _ _ _ _ hj2] at hrj ⊢
        exact hd i j hi2 hj2 hij hri hrj
      · have hj3 : j = pages.length := by omega
        subst hj3
        rw [getD_append_self] at hrj
        exact absurd hrj hx
    · have hi3 : i = pages.length := by omega
      subst hi3
      rw [getD_append_self] at hri
      exact absurd hri hx
  · intro i hi hri
    simp only [List.length_append, List.length_cons, List.length_nil] at hi
    rcases Nat.lt_or_ge i pages.length with hi2 | hi2
    · rw [getD_append_lt _ _ _ _ hi2] at hri ⊢
      exact hb i hi2 hri
    · have hi3 : i = pages.length := by omega
      subst hi3
      rw [getD_append_self] at hri
      exact absurd hri hx

theorem seqInvP_mkResident (pages : List PageInfo) (next : Nat)
    (i vaNew : Nat) (dirty : Bool) (slot : Int)
    (h : i < pages.length) (hInv : SeqInvP pages next) :
    SeqInvP (pages.set i
      { va := vaNew, state := .RESIDENT, seq := (next : Int),
        is_dirty := dirty, swap_slot := slot }) (next + 1) := by
  obtain ⟨hd, hb⟩ := hInv
  constructor
  · intro a b ha hbb hab hra hrb
    rw [List.length_set] at ha hbb
    rcases Decidable.em (a = i) with hai | hai
    · subst hai
      rcases Decidable.em (b = a) with hbi | hbi
      · exact absurd hbi.symm hab
      · rw [getD_set_self _ _ _ _ h] at hra ⊢
        rw [getD_set_ne _ _ _ _ _ (fun he => hbi he.symm)] at hrb ⊢
        exact ne_of_gt (hb b hbb hrb)
    · rcases Decidable.em (b = i) with hbi | hbi
      · subst hbi
        rw [getD_set_ne _ _ _ _ _ (fun he => hai he.symm)] at hra ⊢
        rw [getD_set_self _ _ _ _ h] at hrb ⊢
        exact ne_of_lt (hb a ha hra)
      · rw [getD_set_ne _ _ _ _ _ (fun he => hai he.symm)] at hra ⊢
        rw [getD_set_ne _ _ _ _ _ (fun he => hbi he.symm)] at hrb ⊢
        exact hd a b ha hbb hab hra hrb
  · intro a ha hra
    rw [List.length_set] at ha
    rcases Decidable.em (a = i) with hai | hai
    · subst hai
      rw [getD_set_self _ _ _ _ h] at hra ⊢
      show ((next : Int)) < (((next + 1 : Nat)) : Int)
      exact_mod_cast Nat.lt_succ_self next
    · rw [getD_set_ne _ _ _ _ _ (fun he => hai he.symm)] at hra ⊢
      have h1 := hb a ha hra
      have h2 : ((next : Int)) < (((next + 1 : Nat)) : Int) := by
        exact_mod_cast Nat.lt_succ_self next
      exact lt_trans h1 h2

theorem seqInvP_set_keep (pages : List PageInfo) (next : Nat) (i : Nat)
    (pi2 : PageInfo) (h : i < pages.length)
    (hcase : pi2.state ≠ .RESIDENT ∨
      (pi2.state = (pages.getD i piDefault).state ∧
       pi2.seq = (pages.getD i piDefault).seq))
    (hInv : SeqInvP pages next) : SeqInvP (pages.set i pi2) next := by
  obtain ⟨hd, hb⟩ := hInv
  constructor
  · intro a b ha hbb hab hra hrb
    rw [List.length_set] at ha hbb
    rcases Decidable.em (a = i) with hai | hai
    · subst hai
      rcases Decidable.em (b = a) with hbi | hbi
      · exact absurd hbi.symm hab
      · rw [getD_set_self _ _ _ _ h] at hra ⊢
        rw [getD_set_ne _ _ _ _ _ (fun he => hbi he.symm)] at hrb ⊢
        rcases hcase with hnr | ⟨hst, hsq⟩
        · exact absurd hra hnr
        · rw [hst] at hra
          rw [hsq]
          exact hd a b ha hbb hab hra hrb
    · rcases Decidable.em (b = i) with hbi | hbi
      · subst hbi
        rw [getD_set_ne _ _ _ _ _ (fun he => hai he.symm)] at hra ⊢
        rw [getD_set_self _ _ _ _ h] at hrb ⊢
        rcases hcase with hnr | ⟨hst, hsq⟩
        · exact absurd hrb hnr
        · rw [hst] at hrb
          rw [hsq]
          exact hd a b ha hbb hab hra hrb
      · rw [getD_set_ne _ _ _ _ _ (fun he => hai he.symm)] at hra ⊢
        rw [getD_set_ne _ _ _ _ _ (fun he => hbi he.symm)] at hrb ⊢
        exact hd a b ha hbb hab hra hrb
  · intro a ha hra
    rw [List.length_set] at ha
    rcases Decidable.em (a = i) with hai | hai
    · subst hai
      rw [getD_set_self _ _ _ _ h] at hra ⊢
      rcases hcase with hnr | ⟨hst, hsq⟩
      · exact absurd hra hnr
      · rw [hst] at hra
        rw [hsq]
        exact hb a ha hra
    · rw [getD_set_ne _ _ _ _ _ (fun he => hai he.symm)] at hra ⊢
      exact hb a ha hra

theorem seqInv_step (s t : SeqState) (hInv : SeqInv s)
    (hstep : SeqStep s t) : SeqInv t := by
  cases hstep with
  | create va h =>
    exact seqInvP_append s.pages s.next_fifo_seq _ (by simp) hInv
  | makeResident i vaNew dirty slot h =>
    exact seqInvP_mkResident s.pages s.next_fifo_seq i vaNew dirty slot h hInv
  | evictSwap i slot h =>
    exact seqInvP_set_keep s.pages s.next_fifo_seq i _ h (Or.inl (by simp)) hInv
  | evictDiscard i h =>
    exact seqInvP_set_keep s.pages s.next_fifo_seq i _ h (Or.inl (by simp)) hInv
  | writeFault i h =>
    exact seqInvP_set_keep s.pages s.next_fifo_seq i _ h
      (Or.inr ⟨rfl, rfl⟩) hInv

/-- C6: invariant I4 holds in every reachable per-process paging state,
and every transition to RESIDENT stamps the descriptor with the current
next_fifo_seq and increments the counter. -/
theorem fifo_seq_invariant :
    (∀ s, SeqReachable s → SeqInv s) ∧
    (∀ (s : SeqState) (i vaNew : Nat) (dirty : Bool) (slot : Int),
      i < s.pages.length →
      ((mkResidentState s i vaNew dirty slot).pages.getD i piDefault).seq
        = (s.next_fifo_seq : Int) ∧
      (mkResidentState s i vaNew dirty slot).next_fifo_seq
        = s.next_fifo_seq + 1) := by
  constructor
  · intro s h
    induction h with
    | init s h0 => exact seqInv_init s h0
    | step s t hs hst ih => exact seqInv_step s t ih hst
  · intro s i vaNew dirty slot h
    constructor
    · exact congrArg PageInfo.seq (getD_set_self s.pages i
        { va := vaNew, state := .RESIDENT, seq := (s.next_fifo_seq : Int),
          is_dirty := dirty, swap_slot := slot } piDefault h)
    · rfl

theorem fifo_seq_invariant_witness :
    SeqInv { pages := ([] : List PageInfo), next_fifo_seq := 0 } :=
  fifo_seq_invariant.1 _ (SeqReachable.init _ ⟨rfl, by simp⟩)

/-! ## Fault classification of the lazy.c variant (claim C2)

lazy_handle_fault (lazy.c:89-192) classifies differently from
demand_paging.c: its stack window is the (USERSTACK+1) pages below
stack_top, its heap region is bounded above by the stack bottom rather
than by sz, text and data are tested as two separate ranges, and an
invalid fault returns -1 WITHOUT killing the process (lazy.c:184-190:
the caller decides).  USERSTACK comes from param.h, which is not among
the paging sources, so it is kept as a parameter. -/

/-- Outcome of the decision part of lazy_handle_fault: bail out on an
already-mapped page (lazy.c:96-98), service a SWAPPED hash descriptor
(lazy.c:101-162), service a valid region fault, or return -1; the Bool
of invalid records whether the handler called setkilled on that path
(it never does: lazy.c:186 reads: do not kill process here). -/
inductive LazyOutcome where
  | mappedAlready
  | swapRestore
  | service (c : Cause)
  | invalid (killed : Bool)
deriving DecidableEq, Repr

/-- lazy.c:92-190 up to materialisation: round the address, let vmfault
handle mapped pages, take the swap-restore branch when the hash-slot
descriptor ((va / PGSIZE) % MAX_PROC_PAGES, lazy.c:80-87) is SWAPPED,
otherwise classify va against stack, then heap, then the two separate
executable ranges; with no match, return -1 without killing. -/
def lazy_fault_decide (userstack : Nat) (p : Proc) (va0 : Nat)
    (mapped : Bool) : LazyOutcome :=
  let va := pgrounddown va0
  if mapped then .mappedAlready
  else if (p.pages.getD (va / PGSIZE % MAX_PROC_PAGES) piDefault).state
      = .SWAPPED then .swapRestore
  else
    let stack_bottom := usub64 p.stack_top ((userstack + 1) * PGSIZE)
    if stack_bottom ≤ va ∧ va < p.stack_top then .service .stack
    else if p.heap_start ≤ va ∧ va < stack_bottom then .service .heap
    else if (p.text_start ≤ va ∧ va < p.text_end) ∨
            (p.data_start ≤ va ∧ va < p.data_end) then .service .exec
    else .invalid false

/-- The validity rule lazy_handle_fault actually implements, written
out for the amended claim: SWAPPED hash descriptor, or the
(USERSTACK+1)-page stack window below stack_top, or
[heap_start, stack_bottom), or one of the separate text and data
ranges. -/
def lazy_spec_fault_valid (userstack : Nat) (p : Proc)
    (d : Option PageState) (va : Nat) : Prop :=
  d = some .SWAPPED ∨
  (p.stack_top - (userstack + 1) * PGSIZE ≤ va ∧ va < p.stack_top) ∨
  (p.heap_start ≤ va ∧ va < p.stack_top - (userstack + 1) * PGSIZE) ∨
  (p.text_start ≤ va ∧ va < p.text_end) ∨
  (p.data_start ≤ va ∧ va < p.data_end)

instance (userstack : Nat) (p : Proc) (d : Option PageState) (va : Nat) :
    Decidable (lazy_spec_fault_valid userstack p d va) := by
  unfold lazy_spec_fault_valid
  infer_instance

/-- The unmapped-page decision of lazy_handle_fault yields the
no-kill invalid outcome exactly when its own validity rule fails, and
no path of the decision ever sets the killed flag. -/
theorem lazy_fault_decide_invalid_iff (userstack : Nat) (q : Proc)
    (vb0 : Nat)
    (hq1 : (userstack + 1) * PGSIZE ≤ q.stack_top)
    (hq2 : q.stack_top < 2 ^ 64) :
    (lazy_fault_decide userstack q vb0 false = .invalid false ↔
      ¬ lazy_spec_fault_valid userstack q
        (some ((q.pages.getD (pgrounddown vb0 / PGSIZE % MAX_PROC_PAGES)
          piDefault).state))
        (pgrounddown vb0)) ∧
    (∀ m b, lazy_fault_decide userstack q vb0 m = .invalid b →
      b = false) := by
  constructor
  · simp only [lazy_fault_decide]
    rw [if_neg (by decide : ¬ (false = true))]
    rw [usub64_eq_sub _ _ hq1 hq2]
    unfold lazy_spec_fault_valid
    split_ifs with h1 h2 h3 h4
    · exact iff_of_false (by simp) (fun hr => hr (Or.inl (by rw [h1])))
    · exact iff_of_false (by simp) (fun hr => hr (Or.inr (Or.inl h2)))
    · exact iff_of_false (by simp) (fun hr => hr (Or.inr (Or.inr (Or.inl h3))))
    · exact iff_of_false (by simp)
        (fun hr => hr (h4.elim
          (fun ht => Or.inr (Or.inr (Or.inr (Or.inl ht))))
          (fun hd => Or.inr (Or.inr (Or.inr (Or.inr hd))))))
    · refine iff_of_true rfl ?_
      rintro (hx | hx | hx | hx | hx)
      · exact h1 (Option.some.inj hx)
      · exact h2 hx
      · exact h3 hx
      · exact h4 (Or.inl hx)
      · exact h4 (Or.inr hx)
  · intro m b hmb
    cases m with
    | true =>
      simp only [lazy_fault_decide] at hmb
      simp at hmb
    | false =>
      simp only [lazy_fault_decide] at hmb
      rw [if_neg (by decide : ¬ (false = true))] at hmb
      split_ifs at hmb
      all_goals simp_all

/-- A reachable lazy-variant state after lazy heap growth: kexec set
heap_start = 0x4000 and sz = stack_top = 0x10000 (exec.c:156-158), then
two lazy sys_sbrk calls raised sz to 0x12000 without touching
stack_top.  No descriptor is SWAPPED. -/
def procLazyGrown : Proc :=
  { text_start := 0x1000, text_end := 0x3000, data_start := 0x3000,
    data_end := 0x4000, heap_start := 0x4000, stack_top := 0x10000,
    sz := 0x12000, next_fifo_seq := 0, swapfile := false,
    exec_inode := true, num_swapped_pages := 0, pages := [],
    exec_off := [], bitmap := List.replicate 32 0, mapped := [] }

/-- C2 counterexample: the fault at va = 0x10000 lies in
[heap_start, sz), so the claim calls it valid, but lazy_handle_fault
rejects it — its heap test stops at the stack bottom, not at sz — and
returns -1 without killing (USERSTACK = 1, the stock param.h value; the
divergence is independent of it since va ≥ stack_top). -/
theorem lazy_fault_validity_counterexample :
    (procLazyGrown.pages.getD (0x10000 / PGSIZE % MAX_PROC_PAGES)
      piDefault).state = .UNMAPPED ∧
    spec_fault_valid procLazyGrown
      (some ((procLazyGrown.pages.getD (0x10000 / PGSIZE % MAX_PROC_PAGES)
        piDefault).state))
      0x10000 ∧
    lazy_fault_decide 1 procLazyGrown 0x10000 false = .invalid false := by
  refine ⟨by decide, ?_, by decide⟩
  unfold spec_fault_valid
  right
  right
  left
  constructor <;> decide

/-- C2 (amended): fault-validity classification per variant.
demand_paging.c treats a fault as valid exactly per the claimed
disjunction with stack size K = 2 and terminates invalid faults with
the invalid-access diagnostic before materialising anything;
lazy_handle_fault instead validates against its own rule — stack
window of (USERSTACK+1) pages, heap bounded above by the stack bottom
rather than sz, text and data as separate ranges — and returns -1 on
an invalid fault without killing the process. -/
theorem fault_validity_classification (env : FaultEnv) (p : Proc)
    (va0 : Nat) (w : Bool) (userstack : Nat) (q : Proc) (vb0 : Nat)
    (hst : 2 * PGSIZE ≤ p.stack_top) (h64 : p.stack_top < 2 ^ 64)
    (hq1 : (userstack + 1) * PGSIZE ≤ q.stack_top)
    (hq2 : q.stack_top < 2 ^ 64) :
    ((handle_page_fault env p va0 w).cause ≠ .unknown ↔
      spec_fault_valid p (lookupPageState p (pgrounddown va0))
        (pgrounddown va0)) ∧
    ((handle_page_fault env p va0 w).cause = .unknown →
      (handle_page_fault env p va0 w).ret = -1 ∧
      (handle_page_fault env p va0 w).invalidDiag = true ∧
      (handle_page_fault env p va0 w).frame = none ∧
      (handle_page_fault env p va0 w).evictCount = 0 ∧
      (handle_page_fault env p va0 w).zeroed = false) ∧
    (lazy_fault_decide userstack q vb0 false = .invalid false ↔
      ¬ lazy_spec_fault_valid userstack q
        (some ((q.pages.getD (pgrounddown vb0 / PGSIZE % MAX_PROC_PAGES)
          piDefault).state))
        (pgrounddown vb0)) ∧
    (∀ m b, lazy_fault_decide userstack q vb0 m = .invalid b →
      b = false) := by
  have hA := handle_page_fault_classification env p va0 w hst h64
  have hB := lazy_fault_decide_invalid_iff userstack q vb0 hq1 hq2
  exact ⟨hA.1, hA.2, hB.1, hB.2⟩

theorem fault_validity_classification_witness :
    (handle_page_fault envAllOk procCleanHeap 0x4000 false).cause
      ≠ .unknown ↔
    spec_fault_valid procCleanHeap
      (lookupPageState procCleanHeap (pgrounddown 0x4000))
      (pgrounddown 0x4000) :=
  (fault_validity_classification envAllOk procCleanHeap 0x4000 false
    1 procLazyGrown 0x10000 (by decide) (by decide) (by decide)
    (by decide)).1

end XV6
